import Mathlib

/-!
Verification development for the Google Places enrichment tool
(`google_places_enrichment.py`).  The Python source is shallowly embedded:
pure functions become Lean functions, the two network calls of a record are
modelled as environment-supplied `Except` values (an exception is an
`Except.error` carrying the exception's message), and the observable side
effects of a run (network calls, the inter-record sleep, the final file
write) are collected in an explicit event trace.
-/

namespace GPE

/-- Python truthiness of an optional string: `None` and `""` are falsy. -/
def optTruthy : Option String → Bool
  | none => false
  | some s => s ≠ ""

/-- Python `x or ""` for an optional string `x`. -/
def orEmpty : Option String → String
  | none => ""
  | some s => s

/-- Python whitespace as used by `str.strip()` (ASCII subset). -/
def pyWS (c : Char) : Bool :=
  c == ' ' || c == '\t' || c == '\n' || c == '\r' || c == '\x0b' || c == '\x0c'

/-- Models Python `str.strip()`: drop leading and trailing whitespace. -/
def pyStrip (s : String) : String :=
  ⟨((s.data.dropWhile pyWS).reverse.dropWhile pyWS).reverse⟩

/-- Models Python `s[:n]`: keep the first `n` characters. -/
def pySlice (s : String) (n : Nat) : String :=
  ⟨s.data.take n⟩

/-- Models Python `str.lower()` (character-wise). -/
def pyLower (s : String) : String :=
  ⟨s.data.map Char.toLower⟩

/-- Boolean test that the first list is an initial segment of the second. -/
def isPre : List Char → List Char → Bool
  | [], _ => true
  | _ :: _, [] => false
  | a :: as, b :: bs => a == b && isPre as bs

/-- Models Python `str.removeprefix`: drop `pre` from the front of `s` when
`s` starts with it, else return `s` unchanged. -/
def removeLeading (s pre : String) : String :=
  if isPre pre.data s.data then ⟨s.data.drop pre.data.length⟩ else s

/-- Boolean substring test (models `re.search` with a literal pattern). -/
def listHasSub (sub : List Char) : List Char → Bool
  | [] => sub.isEmpty
  | c :: tl => isPre sub (c :: tl) || listHasSub sub tl

/-- An input record: a row of the table, mapping column names to the string
rendering of the cell (models `row.get(col, "")`, missing column → `""`). -/
abbrev Record := List (String × String)

/-- `row.get(col, "")` on a record. -/
def rowGet (row : Record) (col : String) : String :=
  match row.find? (fun p => p.1 == col) with
  | some p => p.2
  | none => ""

/-- `build_query` from the source: the stripped company cell is always the
first part; each context cell is stripped and appended only when non-empty;
parts are joined with `", "`. -/
def build_query (row : Record) (company_col : String) (context_cols : List String) : String :=
  let parts := [pyStrip (rowGet row company_col)] ++
    context_cols.filterMap (fun col =>
      let val := pyStrip (rowGet row col)
      if val ≠ "" then some val else none)
  String.intercalate ", " parts

/-- The text-search response body: `status` plus the list of `place_id`s of
the results (only the identifiers are relevant to the program). -/
structure TSResponse where
  status : String
  results : List String
deriving DecidableEq

/-- `text_search` from the source, applied to an already-received response:
`None` unless the response status is `"OK"` and the result list is
non-empty, in which case the first result's identifier is returned. -/
def text_search_of (data : TSResponse) : Option String :=
  if data.status ≠ "OK" ∨ data.results = [] then none
  else data.results.head?

/-- A raw address component of the details response: its semantic type tags
and its long-form name. -/
structure Component where
  types : List String
  long_name : String
deriving DecidableEq

/-- The four canonical address fields produced by the normalizer. -/
structure Address where
  street : String
  city : String
  zip_code : String
  country : String
deriving DecidableEq

/-- The mutable state of the loop inside `extract_address_components`:
the `address` dict plus the `street_number` and `route` locals. -/
structure ExtractState where
  address : Address
  street_number : Option String
  route : Option String
deriving DecidableEq

/-- One iteration of the loop in `extract_address_components`: the
`if`/`elif` chain over the component's type tags; a matching branch
overwrites the previously recorded value. -/
def extractStep (s : ExtractState) (comp : Component) : ExtractState :=
  if comp.types.contains "street_number" then { s with street_number := some comp.long_name }
  else if comp.types.contains "route" then { s with route := some comp.long_name }
  else if comp.types.contains "locality" then { s with address := { s.address with city := comp.long_name } }
  else if comp.types.contains "postal_code" then { s with address := { s.address with zip_code := comp.long_name } }
  else if comp.types.contains "country" then { s with address := { s.address with country := comp.long_name } }
  else s

/-- Python `" ".join(part for part in parts if part)` over optional parts. -/
def joinParts (parts : List (Option String)) : String :=
  String.intercalate " " ((parts.filterMap id).filter (fun p => p ≠ ""))

/-- `extract_address_components` from the source. -/
def extract_address_components (components : List Component) : Address :=
  let s0 : ExtractState :=
    { address := { street := "", city := "", zip_code := "", country := "" }
      street_number := none, route := none }
  let s := components.foldl extractStep s0
  if optTruthy s.street_number || optTruthy s.route then
    { s.address with street := joinParts [s.street_number, s.route] }
  else s.address

/-- Splits a character list at its first `':'` (models `url.find(':')`):
`some (before, after)` when a colon exists, `none` otherwise. -/
def splitFirstColon : List Char → Option (List Char × List Char)
  | [] => none
  | c :: cs =>
    if c == ':' then some ([], cs)
    else (splitFirstColon cs).map (fun p => (c :: p.1, p.2))

/-- A character allowed in a URL scheme (letters, digits, `+`, `-`, `.`). -/
def schemeChar (c : Char) : Bool :=
  c.isAlpha || c.isDigit || c == '+' || c == '-' || c == '.'

/-- Models the scheme-stripping step of `urllib.parse.urlsplit`: when the
text before the first `':'` is a well-formed scheme (non-empty, starts with
a letter, scheme characters only), drop it together with the colon. -/
def stripScheme (cs : List Char) : List Char :=
  match splitFirstColon cs with
  | none => cs
  | some (pre, post) =>
    match pre with
    | [] => cs
    | c0 :: _ => if c0.isAlpha && pre.all schemeChar then post else cs

/-- The netloc of `urlsplit`: characters up to the first `/`, `?` or `#`. -/
def netlocChars (cs : List Char) : List Char :=
  cs.takeWhile (fun c => !(c == '/' || c == '?' || c == '#'))

/-- Models `urllib.parse.urlparse(url).netloc`: after stripping a scheme,
the authority is present only behind a leading `//` and extends to the
first `/`, `?` or `#`. -/
def urlparse_netloc (url : String) : String :=
  match stripScheme url.data with
  | '/' :: '/' :: rest => ⟨netlocChars rest⟩
  | _ => ""

/-- The details response body: the three requested fields, each optional
(the address-component list defaults to `[]` as in `result.get(..., [])`). -/
structure DetailsResult where
  international_phone_number : Option String
  website : Option String
  address_components : List Component
deriving DecidableEq

/-- `place_details` from the source, applied to an already-received result
object: phone verbatim, domain from the website's netloc with a leading
`"www."` removed (absent website → absent domain), address normalized. -/
def place_details (result : DetailsResult) : Option String × Option String × Address :=
  let phone := result.international_phone_number
  let domain :=
    if optTruthy result.website then
      some (removeLeading (urlparse_netloc (orEmpty result.website)) "www.")
    else none
  let address := extract_address_components result.address_components
  (phone, domain, address)

deriving instance DecidableEq for Except

/-- The environment seen by one record: the outcome of its (at most) two
network calls.  `Except.error msg` models the call raising an exception with
message `msg` (`str(exc)`); `Except.ok` models a received, parsed response. -/
structure RecordEnv where
  search : Except String TSResponse
  details : Except String DetailsResult
deriving DecidableEq

/-- One row of the working table: the input record plus the seven columns
the enricher writes (`phone_number`, …, `status`), each defaulting to `""`
as initialized before the loop. -/
structure Row where
  data : Record
  phone_number : String := ""
  domain : String := ""
  street : String := ""
  city : String := ""
  zip_code : String := ""
  country : String := ""
  status : String := ""
deriving DecidableEq

/-- An observable side effect of the run: a text-search request, a details
request, the inter-record `time.sleep`, or the final output-file write. -/
inductive Event where
  | searchCall (query : String)
  | detailsCall (place_id : String)
  | sleep (seconds : ℚ)
  | write (output_ext : String)
deriving DecidableEq

/-- Python `any(address.values())`: some canonical address field non-empty. -/
def addrAny (a : Address) : Bool :=
  a.street != "" || a.city != "" || a.zip_code != "" || a.country != ""

/-- The body of the per-record loop of `enrich_file` (lines 141–162): build
the query; on an empty query set `EMPTY_NAME` and `continue` (skipping the
sleep); otherwise resolve, fetch, classify, with any exception caught and
recorded as a truncated `ERROR:` status; then sleep.  Returns the updated
row and the record's event trace. -/
def processRecord (company_col : String) (context_cols : List String)
    (sleep_seconds : ℚ) (env : RecordEnv) (row : Row) : Row × List Event :=
  let query := build_query row.data company_col context_cols
  if query = "" then
    ({ row with status := "EMPTY_NAME" }, [])
  else
    match env.search with
    | Except.error exc =>
      ({ row with status := pySlice ("ERROR:" ++ exc) 250 },
       [Event.searchCall query, Event.sleep sleep_seconds])
    | Except.ok resp =>
      match text_search_of resp with
      | none =>
        ({ row with status := "NOT_FOUND" },
         [Event.searchCall query, Event.sleep sleep_seconds])
      | some pid =>
        match env.details with
        | Except.error exc =>
          ({ row with status := pySlice ("ERROR:" ++ exc) 250 },
           [Event.searchCall query, Event.detailsCall pid, Event.sleep sleep_seconds])
        | Except.ok res =>
          let pda := place_details res
          ({ row with
              phone_number := orEmpty pda.1
              domain := orEmpty pda.2.1
              street := pda.2.2.street
              city := pda.2.2.city
              zip_code := pda.2.2.zip_code
              country := pda.2.2.country
              status := if optTruthy pda.1 || optTruthy pda.2.1 || addrAny pda.2.2
                        then "OK" else "PARTIAL" },
           [Event.searchCall query, Event.detailsCall pid, Event.sleep sleep_seconds])

/-- The batch loop: every row is processed in order with its environment,
and the event traces are concatenated. -/
def enrichLoop (company_col : String) (context_cols : List String) (sleep_seconds : ℚ) :
    List (RecordEnv × Row) → List Row × List Event
  | [] => ([], [])
  | (env, row) :: rest =>
    let pr := processRecord company_col context_cols sleep_seconds env row
    let r := enrichLoop company_col context_cols sleep_seconds rest
    (pr.1 :: r.1, pr.2 ++ r.2)

/-- The junk column-name patterns of `clean_input_dataframe` (all literal,
matched case-insensitively as substrings by `re.search`). -/
def junkPatterns : List String :=
  ["flex", "truncate", "font", "dark:border", "inline", "text-", "block href"]

/-- Does a column name match one of the junk patterns? -/
def matchesJunk (col : String) : Bool :=
  junkPatterns.any (fun p => listHasSub (pyLower p).data (pyLower col).data)

/-- The column rename map of `clean_input_dataframe`. -/
def renameCol (c : String) : String :=
  if c = "Company" then "Company Name" else if c = "flex 2" then "City" else c

/-- `clean_input_dataframe` on the column list: drop junk columns, rename,
and append a `Country` column when absent. -/
def clean_columns (cols : List String) : List String :=
  let kept := cols.filter (fun c => !(matchesJunk c))
  let renamed := kept.map renameCol
  if renamed.contains "Country" then renamed else renamed ++ ["Country"]

/-- `clean_input_dataframe` on one record (same cleanup, applied to keys). -/
def clean_record (r : Record) : Record :=
  let kept := r.filter (fun p => !(matchesJunk p.1))
  let renamed := kept.map (fun p => (renameCol p.1, p.2))
  if (renamed.map Prod.fst).contains "Country" then renamed
  else renamed ++ [("Country", "")]

/-- Initialization of one output column before the loop: an existing column
keeps its values, a missing one is created as `""`. -/
def colInit (cols : List String) (r : Record) (c : String) : String :=
  if cols.contains c then rowGet r c else ""

/-- A cleaned record lifted to a working row, with the seven output columns
initialized as `enrich_file` does before the loop. -/
def initRow (cols : List String) (r : Record) : Row :=
  { data := r
    phone_number := colInit cols r "phone_number"
    domain := colInit cols r "domain"
    street := colInit cols r "street"
    city := colInit cols r "city"
    zip_code := colInit cols r "zip_code"
    country := colInit cols r "country"
    status := colInit cols r "status" }

/-- The outcome of a run: a fatal `SystemExit` message, or the table of
enriched rows that gets written. -/
inductive FileOutcome where
  | fatal (msg : String)
  | done (rows : List Row)
deriving DecidableEq

/-- The table-file extensions the program accepts. -/
def validTableExt (ext : String) : Bool :=
  ext == ".csv" || ext == ".xlsx" || ext == ".xls"

/-- `enrich_file` from the source: input-extension check, cleanup,
company-column check, column initialization, the per-record loop, and only
then the output-extension check and the single write.  The file extensions
are the (not yet lowered) path suffixes. -/
def enrich_file (input_ext : String) (cols : List String) (records : List Record)
    (output_ext : String) (sleep_seconds : ℚ) (context_cols : List String)
    (envs : List RecordEnv) : FileOutcome × List Event :=
  if !(validTableExt (pyLower input_ext)) then
    (FileOutcome.fatal "❌ Unsupported input file type. Use .csv or .xlsx", [])
  else
    let cols2 := clean_columns cols
    let records2 := records.map clean_record
    if !(cols2.contains "Company Name") then
      (FileOutcome.fatal "❌ Could not detect a valid 'Company Name' column after cleaning.", [])
    else
      let rows := records2.map (initRow cols2)
      let lp := enrichLoop "Company Name" context_cols sleep_seconds (envs.zip rows)
      if validTableExt (pyLower output_ext) then
        (FileOutcome.done lp.1, lp.2 ++ [Event.write output_ext])
      else
        (FileOutcome.fatal "❌ Unsupported output file type. Use .csv or .xlsx", lp.2)

/-- `main` from the source up to and including the call of `enrich_file`:
the credential check happens before any file is touched. -/
def main_run (api_key : Option String) (input_ext : String) (cols : List String)
    (records : List Record) (output_ext : String) (sleep_seconds : ℚ)
    (context_cols : List String) (envs : List RecordEnv) : FileOutcome × List Event :=
  if !(optTruthy api_key) then
    (FileOutcome.fatal "❌ Provide an API key via --api-key or $GOOGLE_API_KEY.", [])
  else
    enrich_file input_ext cols records output_ext sleep_seconds context_cols envs

/-- Does the record's execution path raise an exception: the search call
raises, or a place is found and the details call raises? -/
def recordRaises (env : RecordEnv) : Bool :=
  match env.search with
  | Except.error _ => true
  | Except.ok resp =>
    match text_search_of resp with
    | none => false
    | some _ =>
      match env.details with
      | Except.error _ => true
      | Except.ok _ => false

lemma data_append (a b : String) : (a ++ b).data = a.data ++ b.data := by
  cases a; cases b; rfl

lemma str_eq_of_data {a b : String} (h : a.data = b.data) : a = b := by
  cases a; cases b; cases h; rfl

lemma length_eq_data (s : String) : s.length = s.data.length := rfl

lemma pySlice_len_le (s : String) (n : Nat) : (pySlice s n).length ≤ n := by
  show (s.data.take n).length ≤ n
  exact List.length_take_le n s.data

lemma pySlice_error_status (e : String) :
    pySlice ("ERROR:" ++ e) 250 = "ERROR:" ++ (⟨e.data.take 244⟩ : String) := by
  apply str_eq_of_data
  rw [data_append]
  show (("ERROR:" ++ e).data.take 250) = "ERROR:".data ++ e.data.take 244
  rw [data_append, List.take_append_eq_append_take,
      List.take_of_length_le (by decide : ("ERROR:".data).length ≤ 250)]
  have h6 : ("ERROR:".data).length = 6 := by decide
  rw [h6]

lemma processRecord_raises_status (cc : String) (ctx : List String) (s : ℚ)
    (env : RecordEnv) (row : Row)
    (hq : build_query row.data cc ctx ≠ "") (hr : recordRaises env = true) :
    ∃ e, (processRecord cc ctx s env row).1.status = pySlice ("ERROR:" ++ e) 250 := by
  obtain ⟨srch, det⟩ := env
  simp only [processRecord]
  rw [if_neg hq]
  cases srch with
  | error e => exact ⟨e, rfl⟩
  | ok resp =>
    simp only [recordRaises] at hr
    cases hts : text_search_of resp with
    | none => rw [hts] at hr; simp at hr
    | some pid =>
      rw [hts] at hr
      cases det with
      | error e => simp only [hts]; exact ⟨e, rfl⟩
      | ok res => simp at hr

/-- Claim C1: if the search or details call of a record raises, the record's
status starts with `ERROR:`, its length is at most 250 characters, and the
batch loop still emits a result for this record followed by the unchanged
processing of the remaining records (no exception propagates). -/
theorem C1_fault_containment (cc : String) (ctx : List String) (s : ℚ)
    (env : RecordEnv) (row : Row) (rest : List (RecordEnv × Row))
    (hq : build_query row.data cc ctx ≠ "")
    (hr : recordRaises env = true) :
    (∃ t, (processRecord cc ctx s env row).1.status = "ERROR:" ++ t) ∧
    (processRecord cc ctx s env row).1.status.length ≤ 250 ∧
    (enrichLoop cc ctx s ((env, row) :: rest)).1 =
      (processRecord cc ctx s env row).1 :: (enrichLoop cc ctx s rest).1 := by
  obtain ⟨e, he⟩ := processRecord_raises_status cc ctx s env row hq hr
  refine ⟨⟨⟨e.data.take 244⟩, ?_⟩, ?_, rfl⟩
  · rw [he, pySlice_error_status]
  · rw [he]; exact pySlice_len_le _ _

/-- Witness for C1 at a concrete record whose search call raises. -/
theorem C1_fault_containment_witness :
    (processRecord "Company Name" [] 1
      ⟨Except.error "boom", Except.ok ⟨none, none, []⟩⟩
      { data := [("Company Name", "Acme")] }).1.status.length ≤ 250 :=
  (C1_fault_containment "Company Name" [] 1
      ⟨Except.error "boom", Except.ok ⟨none, none, []⟩⟩
      { data := [("Company Name", "Acme")] } []
      (by decide) (by decide)).2.1

/-- Claim C2: for a record that reaches the details-fetch step with
successfully received responses: when the resolver yields no identifier the
status is `NOT_FOUND`; when it yields one, the status is `OK` exactly when
the fetched phone is present (a non-empty value), or the derived domain is
present, or at least one of the four normalized address fields is a
non-empty string — and `PARTIAL` otherwise. -/
theorem C2_status_classification (cc : String) (ctx : List String) (s : ℚ)
    (env : RecordEnv) (row : Row)
    (hq : build_query row.data cc ctx ≠ "")
    (resp : TSResponse) (hs : env.search = Except.ok resp)
    (res : DetailsResult) (hd : env.details = Except.ok res) :
    (text_search_of resp = none →
      (processRecord cc ctx s env row).1.status = "NOT_FOUND") ∧
    (∀ pid, text_search_of resp = some pid →
      (processRecord cc ctx s env row).1.status =
        if optTruthy (place_details res).1 || optTruthy (place_details res).2.1
            || addrAny (place_details res).2.2
        then "OK" else "PARTIAL") := by
  constructor
  · intro hn
    simp only [processRecord]
    rw [if_neg hq, hs]
    simp [hn]
  · intro pid hp
    simp only [processRecord]
    rw [if_neg hq, hs]
    simp [hp, hd]

/-- Witness for C2 at a concrete record whose details carry a phone. -/
theorem C2_status_classification_witness :
    (processRecord "Company Name" [] 1
      ⟨Except.ok ⟨"OK", ["pid1"]⟩, Except.ok ⟨some "+49 30 1234", none, []⟩⟩
      { data := [("Company Name", "Acme")] }).1.status = "OK" := by
  have h := (C2_status_classification "Company Name" [] 1
      ⟨Except.ok ⟨"OK", ["pid1"]⟩, Except.ok ⟨some "+49 30 1234", none, []⟩⟩
      { data := [("Company Name", "Acme")] } (by decide)
      ⟨"OK", ["pid1"]⟩ rfl ⟨some "+49 30 1234", none, []⟩ rfl).2 "pid1" (by decide)
  rw [h]; decide

/-- A terminal status other than `OK`/`PARTIAL`: `EMPTY_NAME`, `NOT_FOUND`
or an `ERROR:`-prefixed message. -/
def softOrError (st : String) : Prop :=
  st = "EMPTY_NAME" ∨ st = "NOT_FOUND" ∨ ∃ t, st = "ERROR:" ++ t

lemma isPre_append (l m : List Char) : isPre l (l ++ m) = true := by
  induction l with
  | nil => rfl
  | cons c t ih => simp [isPre, ih]

lemma not_error_st (st : String) (hst : isPre ("ERROR:".data) st.data = false) :
    ∀ t, st ≠ "ERROR:" ++ t := by
  intro t ht
  rw [ht, data_append, isPre_append] at hst
  exact absurd hst (by decide)

/-- Claim C9: a record whose outcome is `EMPTY_NAME`, `NOT_FOUND` or an
`ERROR:` status has only its status column written: the six detail columns
keep the values they had before the record was processed. -/
theorem C9_frame (cc : String) (ctx : List String) (s : ℚ)
    (env : RecordEnv) (row : Row)
    (h : softOrError (processRecord cc ctx s env row).1.status) :
    (processRecord cc ctx s env row).1.phone_number = row.phone_number ∧
    (processRecord cc ctx s env row).1.domain = row.domain ∧
    (processRecord cc ctx s env row).1.street = row.street ∧
    (processRecord cc ctx s env row).1.city = row.city ∧
    (processRecord cc ctx s env row).1.zip_code = row.zip_code ∧
    (processRecord cc ctx s env row).1.country = row.country := by
  obtain ⟨srch, det⟩ := env
  by_cases hq : build_query row.data cc ctx = ""
  · simp [processRecord, hq]
  · cases srch with
    | error e => simp [processRecord, hq]
    | ok resp =>
      cases hts : text_search_of resp with
      | none => simp [processRecord, hq, hts]
      | some pid =>
        cases det with
        | error e => simp [processRecord, hq, hts]
        | ok res =>
          exfalso
          have hst : (processRecord cc ctx s ⟨Except.ok resp, Except.ok res⟩ row).1.status
              = if optTruthy (place_details res).1 || optTruthy (place_details res).2.1
                  || addrAny (place_details res).2.2 then "OK" else "PARTIAL" := by
            simp only [processRecord]
            rw [if_neg hq]
            simp [hts]
          rcases h with h | h | ⟨t, ht⟩
          · rw [hst] at h; split at h <;> exact absurd h (by decide)
          · rw [hst] at h; split at h <;> exact absurd h (by decide)
          · rw [hst] at ht; split at ht <;> exact not_error_st _ (by decide) t ht

/-- Witness for C9 at a concrete `NOT_FOUND` record carrying prior values. -/
theorem C9_frame_witness :
    (processRecord "Company Name" [] 1
      ⟨Except.ok ⟨"ZERO_RESULTS", []⟩, Except.ok ⟨none, none, []⟩⟩
      { data := [("Company Name", "Acme")], phone_number := "keep" }).1.phone_number
      = "keep" :=
  (C9_frame "Company Name" [] 1
      ⟨Except.ok ⟨"ZERO_RESULTS", []⟩, Except.ok ⟨none, none, []⟩⟩
      { data := [("Company Name", "Acme")], phone_number := "keep" }
      (Or.inr (Or.inl (by decide)))).1

/-- Modelled from the spec's words for claim C8: the trimmed company name
followed by the trimmed context values, joined with `", "` with empty or
whitespace-only parts omitted — all parts, the company part included. -/
def build_query_claim (row : Record) (company_col : String) (context_cols : List String) : String :=
  String.intercalate ", "
    ((pyStrip (rowGet row company_col) ::
        context_cols.map (fun c => pyStrip (rowGet row c))).filter (fun v => v ≠ ""))

lemma filterMap_strip_eq (row : Record) (l : List String) :
    (l.filterMap (fun col =>
      let val := pyStrip (rowGet row col)
      if val ≠ "" then some val else none)) =
    (l.map (fun c => pyStrip (rowGet row c))).filter (fun v => v ≠ "") := by
  induction l with
  | nil => rfl
  | cons a t ih =>
    by_cases ha : pyStrip (rowGet row a) = ""
    · simpa [List.filterMap_cons, ha] using ih
    · simpa [List.filterMap_cons, ha] using ih

/-- Claim C8 counterexample: with an empty company value and context value
`"Berlin"` the code builds `", Berlin"` — the empty company part is not
omitted — while the claim's rule gives `"Berlin"`. -/
theorem C8_counterexample :
    build_query [("Company Name", ""), ("City", "Berlin")] "Company Name" ["City"]
      = ", Berlin" ∧
    build_query_claim [("Company Name", ""), ("City", "Berlin")] "Company Name" ["City"]
      = "Berlin" ∧
    (", Berlin" : String) ≠ "Berlin" := by decide

/-- Claim C8 amended: the query is the trimmed company value — always
included as the first part, even when empty — followed by exactly the
non-empty trimmed context values in caller order, joined with `", "`; a
missing field reads as the empty string. -/
theorem C8_amended (row : Record) (cc : String) (ctx : List String) :
    build_query row cc ctx =
      String.intercalate ", "
        (pyStrip (rowGet row cc) ::
          (ctx.map (fun c => pyStrip (rowGet row c))).filter (fun v => v ≠ "")) ∧
    (∀ c : String, row.find? (fun p => p.1 == c) = none → rowGet row c = "") := by
  constructor
  · unfold build_query
    rw [filterMap_strip_eq]
    rfl
  · intro c hc
    unfold rowGet
    rw [hc]

/-- Witness for C8 (amended) on the spec's own example. -/
theorem C8_amended_witness :
    build_query [("Company Name", "Acme"), ("City", "Berlin")] "Company Name" ["City"]
      = "Acme, Berlin" := by
  rw [(C8_amended [("Company Name", "Acme"), ("City", "Berlin")] "Company Name" ["City"]).1]
  decide

/-- Claim C3 counterexample: a record with empty company value but context
value `"Berlin"` (context column configured) is not `EMPTY_NAME`: the query
`", Berlin"` is non-empty and a search call is issued for it. -/
theorem C3_counterexample :
    (processRecord "Company Name" ["City"] 1
      ⟨Except.ok ⟨"ZERO_RESULTS", []⟩, Except.ok ⟨none, none, []⟩⟩
      { data := [("Company Name", ""), ("City", "Berlin")] }).1.status ≠ "EMPTY_NAME" ∧
    Event.searchCall ", Berlin" ∈
      (processRecord "Company Name" ["City"] 1
        ⟨Except.ok ⟨"ZERO_RESULTS", []⟩, Except.ok ⟨none, none, []⟩⟩
        { data := [("Company Name", ""), ("City", "Berlin")] }).2 := by decide

/-- Claim C3 amended: when the company value is empty after trimming AND
every configured context value is empty after trimming, the query is empty,
the status is `EMPTY_NAME` and no network call (no event at all) occurs. -/
theorem C3_amended (cc : String) (ctx : List String) (s : ℚ) (env : RecordEnv) (row : Row)
    (hc : pyStrip (rowGet row.data cc) = "")
    (hctx : ∀ c ∈ ctx, pyStrip (rowGet row.data c) = "") :
    (processRecord cc ctx s env row).1.status = "EMPTY_NAME" ∧
    (processRecord cc ctx s env row).2 = [] := by
  have hq : build_query row.data cc ctx = "" := by
    unfold build_query
    rw [filterMap_strip_eq, hc]
    have hnil : ((ctx.map (fun c => pyStrip (rowGet row.data c))).filter
        (fun v => v ≠ "")) = [] := by
      rw [List.filter_eq_nil_iff]
      intro a ha
      obtain ⟨c, hcm, rfl⟩ := List.mem_map.mp ha
      simp [hctx c hcm]
    rw [hnil]
    rfl
  simp [processRecord, hq]

/-- Witness for C3 (amended) at a whitespace-only record. -/
theorem C3_amended_witness :
    (processRecord "Company Name" ["City"] 1
      ⟨Except.error "unused", Except.error "unused"⟩
      { data := [("Company Name", "   "), ("City", " ")] }).2 = [] :=
  (C3_amended "Company Name" ["City"] 1 ⟨Except.error "unused", Except.error "unused"⟩
    { data := [("Company Name", "   "), ("City", " ")] } (by decide) (by decide)).2

/-- Claim C6 counterexample: an `EMPTY_NAME` record skips the sleep via
`continue`: its event trace is empty, so no delay of the configured
duration is observed before the next record. -/
theorem C6_counterexample :
    (processRecord "Company Name" [] 1
      ⟨Except.error "unused", Except.error "unused"⟩
      { data := [("Company Name", "")] }).1.status = "EMPTY_NAME" ∧
    (processRecord "Company Name" [] 1
      ⟨Except.error "unused", Except.error "unused"⟩
      { data := [("Company Name", "")] }).2 = [] := by decide

/-- Claim C6 amended: every record whose query is non-empty ends its event
trace with a sleep of the configured duration, whatever its outcome; an
`EMPTY_NAME` record (empty query) skips the sleep entirely. -/
theorem C6_amended (cc : String) (ctx : List String) (s : ℚ) (env : RecordEnv) (row : Row) :
    (build_query row.data cc ctx = "" → (processRecord cc ctx s env row).2 = []) ∧
    (build_query row.data cc ctx ≠ "" →
      ∃ evs, (processRecord cc ctx s env row).2 = evs ++ [Event.sleep s]) := by
  obtain ⟨srch, det⟩ := env
  constructor
  · intro hq; simp [processRecord, hq]
  · intro hq
    simp only [processRecord]
    rw [if_neg hq]
    cases srch with
    | error e => exact ⟨[Event.searchCall (build_query row.data cc ctx)], rfl⟩
    | ok resp =>
      cases hts : text_search_of resp with
      | none =>
        refine ⟨[Event.searchCall (build_query row.data cc ctx)], ?_⟩
        simp [hts]
      | some pid =>
        cases det with
        | error e =>
          refine ⟨[Event.searchCall (build_query row.data cc ctx), Event.detailsCall pid], ?_⟩
          simp [hts]
        | ok res =>
          refine ⟨[Event.searchCall (build_query row.data cc ctx), Event.detailsCall pid], ?_⟩
          simp [hts]

/-- Witness for C6 (amended) at a record whose search call raises. -/
theorem C6_amended_witness :
    (processRecord "Company Name" [] 1
      ⟨Except.error "boom", Except.ok ⟨none, none, []⟩⟩
      { data := [("Company Name", "Acme")] }).2.getLast? = some (Event.sleep 1) := by
  obtain ⟨evs, hevs⟩ := (C6_amended "Company Name" [] 1
      ⟨Except.error "boom", Except.ok ⟨none, none, []⟩⟩
      { data := [("Company Name", "Acme")] }).2 (by decide)
  rw [hevs, List.getLast?_concat]

/-- The five output roles of the address normalizer. -/
inductive Role where
  | street_number
  | route
  | locality
  | postal_code
  | country
deriving DecidableEq

/-- The semantic type tag corresponding to each role. -/
def roleTag : Role → String
  | Role.street_number => "street_number"
  | Role.route => "route"
  | Role.locality => "locality"
  | Role.postal_code => "postal_code"
  | Role.country => "country"

/-- The fixed priority order of the `if`/`elif` chain of the normalizer. -/
def rolePriority : List Role :=
  [Role.street_number, Role.route, Role.locality, Role.postal_code, Role.country]

/-- The single role a component is assigned to: the first role in priority
order whose tag the component carries, if any. -/
def highestRole (c : Component) : Option Role :=
  rolePriority.find? (fun r => c.types.contains (roleTag r))

lemma extractStep_by_role (s : ExtractState) (c : Component) :
    extractStep s c =
      match highestRole c with
      | some Role.street_number => { s with street_number := some c.long_name }
      | some Role.route => { s with route := some c.long_name }
      | some Role.locality => { s with address := { s.address with city := c.long_name } }
      | some Role.postal_code => { s with address := { s.address with zip_code := c.long_name } }
      | some Role.country => { s with address := { s.address with country := c.long_name } }
      | none => s := by
  unfold extractStep highestRole rolePriority roleTag
  by_cases h1 : "street_number" ∈ c.types <;>
    by_cases h2 : "route" ∈ c.types <;>
      by_cases h3 : "locality" ∈ c.types <;>
        by_cases h4 : "postal_code" ∈ c.types <;>
          by_cases h5 : "country" ∈ c.types <;>
            simp [h1, h2, h3, h4, h5, List.find?]

/-- Claim C10: each raw component updates at most one field of the loop
state, the one selected by the fixed priority order street-number, route,
locality, postal-code, country over its type tags; a component carrying
several of these tags contributes only to the highest-priority role, and a
component carrying none of them leaves the state unchanged. -/
theorem C10_single_role (s : ExtractState) (c : Component) :
    extractStep s c =
      match highestRole c with
      | some Role.street_number => { s with street_number := some c.long_name }
      | some Role.route => { s with route := some c.long_name }
      | some Role.locality => { s with address := { s.address with city := c.long_name } }
      | some Role.postal_code => { s with address := { s.address with zip_code := c.long_name } }
      | some Role.country => { s with address := { s.address with country := c.long_name } }
      | none => s :=
  extractStep_by_role s c

/-- The `long_name` of the last component in list order that the priority
rule assigns to role `r`, if any (first match of the reversed list). -/
def lastMatch (comps : List Component) (r : Role) : Option String :=
  (comps.reverse.find? (fun c => highestRole c == some r)).map Component.long_name

/-- `optOr a b` is `a` unless `a` is `none`, in which case it is `b`. -/
def optOr (a b : Option String) : Option String :=
  match a with
  | some v => some v
  | none => b

lemma optOr_none (a : Option String) : optOr a none = a := by
  cases a <;> rfl

/-- The running value of the optional role `r` (street number / route)
after folding `comps`, starting from `a`. -/
def updOpt (a : Option String) (r : Role) (comps : List Component) : Option String :=
  comps.foldl (fun acc c => if highestRole c == some r then some c.long_name else acc) a

/-- The running value of the string role `r` (city / zip / country) after
folding `comps`, starting from `a`. -/
def updStr (a : String) (r : Role) (comps : List Component) : String :=
  comps.foldl (fun acc c => if highestRole c == some r then c.long_name else acc) a

lemma list_find?_append {α : Type} (p : α → Bool) (l1 l2 : List α) :
    (l1 ++ l2).find? p =
      match l1.find? p with
      | some x => some x
      | none => l2.find? p := by
  induction l1 with
  | nil => rfl
  | cons a t ih =>
    by_cases ha : p a
    · simp [List.find?, ha]
    · simp [List.find?, ha, ih]

lemma lastMatch_cons (c : Component) (t : List Component) (r : Role) :
    lastMatch (c :: t) r =
      match lastMatch t r with
      | some v => some v
      | none => if highestRole c == some r then some c.long_name else none := by
  unfold lastMatch
  rw [List.reverse_cons, list_find?_append]
  cases t.reverse.find? (fun c => highestRole c == some r) with
  | none =>
    by_cases hc : highestRole c == some r
    · simp [List.find?, hc]
    · simp [List.find?, hc]
  | some x => simp

lemma updOpt_eq (r : Role) (comps : List Component) :
    ∀ a, updOpt a r comps = optOr (lastMatch comps r) a := by
  induction comps with
  | nil => intro a; rfl
  | cons c t ih =>
    intro a
    rw [show updOpt a r (c :: t)
          = updOpt (if highestRole c == some r then some c.long_name else a) r t from rfl,
        ih, lastMatch_cons]
    cases hlt : lastMatch t r with
    | some v => rfl
    | none =>
      by_cases hc : highestRole c == some r
      · simp [hc, optOr]
      · simp [hc, optOr]

lemma updStr_eq (r : Role) (comps : List Component) :
    ∀ a, updStr a r comps = (lastMatch comps r).getD a := by
  induction comps with
  | nil => intro a; rfl
  | cons c t ih =>
    intro a
    rw [show updStr a r (c :: t)
          = updStr (if highestRole c == some r then c.long_name else a) r t from rfl,
        ih, lastMatch_cons]
    cases hlt : lastMatch t r with
    | some v => rfl
    | none =>
      by_cases hc : highestRole c == some r
      · simp [hc]
      · simp [hc]

lemma foldl_extractStep_char (comps : List Component) :
    ∀ s : ExtractState,
      comps.foldl extractStep s =
        { address :=
            { street := s.address.street
              city := updStr s.address.city Role.locality comps
              zip_code := updStr s.address.zip_code Role.postal_code comps
              country := updStr s.address.country Role.country comps }
          street_number := updOpt s.street_number Role.street_number comps
          route := updOpt s.route Role.route comps } := by
  induction comps with
  | nil => intro s; rfl
  | cons c t ih =>
    intro s
    rw [List.foldl_cons, ih (extractStep s c), extractStep_by_role]
    cases hr : highestRole c with
    | none => simp [updOpt, updStr, hr]
    | some r => cases r <;> simp [updOpt, updStr, hr]

/-- Claim C4 counterexample: with two locality components, the recorded
city is the second one's name — the later duplicate overwrites the first,
contradicting "first occurrence wins". -/
theorem C4_counterexample :
    (extract_address_components
      [⟨["locality"], "Springfield"⟩, ⟨["locality"], "Shelbyville"⟩]).city
      = "Shelbyville" ∧
    (extract_address_components
      [⟨["locality"], "Springfield"⟩, ⟨["locality"], "Shelbyville"⟩]).city
      ≠ "Springfield" := by decide

/-- Claim C4 amended: each of the roles street-number, route, locality,
postal-code and country is filled from the LAST component in list order
that the priority rule assigns to that role — later duplicates overwrite
earlier ones — and street is synthesized from the recorded street-number
and route parts. -/
theorem C4_amended (comps : List Component) :
    (extract_address_components comps).city = (lastMatch comps Role.locality).getD "" ∧
    (extract_address_components comps).zip_code = (lastMatch comps Role.postal_code).getD "" ∧
    (extract_address_components comps).country = (lastMatch comps Role.country).getD "" ∧
    (extract_address_components comps).street =
      (if optTruthy (lastMatch comps Role.street_number)
          || optTruthy (lastMatch comps Role.route)
       then joinParts [lastMatch comps Role.street_number, lastMatch comps Role.route]
       else "") := by
  simp only [extract_address_components]
  rw [foldl_extractStep_char]
  simp only [updStr_eq, updOpt_eq, optOr_none]
  by_cases hb : (optTruthy (lastMatch comps Role.street_number)
      || optTruthy (lastMatch comps Role.route)) = true
  · simp [hb]
  · simp [hb]

lemma write_not_in_processRecord (p : String) (cc : String) (ctx : List String)
    (s : ℚ) (env : RecordEnv) (row : Row) :
    Event.write p ∉ (processRecord cc ctx s env row).2 := by
  obtain ⟨srch, det⟩ := env
  by_cases hq : build_query row.data cc ctx = ""
  · simp [processRecord, hq]
  · cases srch with
    | error e => simp [processRecord, hq]
    | ok resp =>
      cases hts : text_search_of resp with
      | none => simp [processRecord, hq, hts]
      | some pid =>
        cases det with
        | error e => simp [processRecord, hq, hts]
        | ok res => simp [processRecord, hq, hts]

lemma write_not_in_enrichLoop (p : String) (cc : String) (ctx : List String)
    (s : ℚ) (l : List (RecordEnv × Row)) :
    Event.write p ∉ (enrichLoop cc ctx s l).2 := by
  induction l with
  | nil => simp [enrichLoop]
  | cons hd tl ih =>
    obtain ⟨env, row⟩ := hd
    intro h
    simp only [enrichLoop] at h
    rcases List.mem_append.mp h with h1 | h1
    · exact write_not_in_processRecord p cc ctx s env row h1
    · exact ih h1

/-- Claim C5 counterexample: a run with valid credential, valid input
extension and a present company column but an unsupported OUTPUT extension
ends fatally, yet the single record was enriched first — its search call is
in the trace.  The output-extension precondition does not abort before
enrichment begins (only no output is written). -/
theorem C5_counterexample :
    (main_run (some "KEY") ".csv" ["Company Name"] [[("Company Name", "Acme")]] ".txt" 1 []
      [⟨Except.ok ⟨"ZERO_RESULTS", []⟩, Except.ok ⟨none, none, []⟩⟩]).1
      = FileOutcome.fatal "❌ Unsupported output file type. Use .csv or .xlsx" ∧
    Event.searchCall "Acme" ∈
      (main_run (some "KEY") ".csv" ["Company Name"] [[("Company Name", "Acme")]] ".txt" 1 []
        [⟨Except.ok ⟨"ZERO_RESULTS", []⟩, Except.ok ⟨none, none, []⟩⟩]).2 := by decide

/-- Claim C5 amended: a fatal run never writes an output file (no write
event), and the input-side fatal preconditions — missing credential,
unsupported input extension, missing company-name column after cleanup —
abort before any enrichment: their trace is empty.  An unsupported output
extension is fatal only at write time, after the loop has run. -/
theorem C5_fatal (api_key : Option String) (input_ext : String) (cols : List String)
    (records : List Record) (output_ext : String) (s : ℚ) (ctx : List String)
    (envs : List RecordEnv) :
    (∀ m p, (main_run api_key input_ext cols records output_ext s ctx envs).1
        = FileOutcome.fatal m →
      Event.write p ∉ (main_run api_key input_ext cols records output_ext s ctx envs).2) ∧
    ((optTruthy api_key = false ∨ validTableExt (pyLower input_ext) = false ∨
        (clean_columns cols).contains "Company Name" = false) →
      (main_run api_key input_ext cols records output_ext s ctx envs).2 = []) := by
  by_cases hk : optTruthy api_key
  · by_cases hin : validTableExt (pyLower input_ext)
    · by_cases hcc : "Company Name" ∈ clean_columns cols
      · by_cases hout : validTableExt (pyLower output_ext)
        · constructor
          · intro m p hfatal
            simp [main_run, enrich_file, hk, hin, hcc, hout] at hfatal
          · intro hpre
            rcases hpre with h | h | h <;> simp_all
        · constructor
          · intro m p _
            have h2 : (main_run api_key input_ext cols records output_ext s ctx envs).2
                = (enrichLoop "Company Name" ctx s
                    (envs.zip ((records.map clean_record).map (initRow (clean_columns cols))))).2 := by
              simp [main_run, enrich_file, hk, hin, hcc, hout]
            rw [h2]
            exact write_not_in_enrichLoop p "Company Name" ctx s _
          · intro hpre
            rcases hpre with h | h | h <;> simp_all
      · have h2 : (main_run api_key input_ext cols records output_ext s ctx envs).2 = [] := by
          simp [main_run, enrich_file, hk, hin, hcc]
        exact ⟨fun m p _ => by rw [h2]; simp, fun _ => h2⟩
    · have h2 : (main_run api_key input_ext cols records output_ext s ctx envs).2 = [] := by
        simp [main_run, enrich_file, hk, hin]
      exact ⟨fun m p _ => by rw [h2]; simp, fun _ => h2⟩
  · have h2 : (main_run api_key input_ext cols records output_ext s ctx envs).2 = [] := by
      simp [main_run, hk]
    exact ⟨fun m p _ => by rw [h2]; simp, fun _ => h2⟩

/-- Witness for C5 (amended): a run with a bad input extension has an empty
trace. -/
theorem C5_fatal_witness :
    (main_run (some "KEY") ".txt" ["Company Name"] [] ".csv" 1 [] []).2 = [] :=
  (C5_fatal (some "KEY") ".txt" ["Company Name"] [] ".csv" 1 [] []).2
    (Or.inr (Or.inl (by decide)))

/-- Drop everything up to and including the last `'@'` of the list. -/
def afterLastAt (l : List Char) : List Char :=
  (l.reverse.takeWhile (fun c => !(c == '@'))).reverse

/-- Modelled from the spec: "parse the website URL, take its host
component".  The host of a URL is its authority with the user-info part
(through the last `'@'`) and the port (from the first `':'` of the host
part) removed. -/
def spec_host (url : String) : String :=
  ⟨(afterLastAt (urlparse_netloc url).data).takeWhile (fun c => !(c == ':'))⟩

/-- Claim C7 counterexample: for the website
`https://www.example.com:8080/path` the code's domain is the netloc with
`www.` stripped, `example.com:8080`, while the claim's "host component with
`www.` stripped" is `example.com`: the code keeps the port (and any
user-info), the host does not. -/
theorem C7_counterexample :
    (place_details ⟨none, some "https://www.example.com:8080/path", []⟩).2.1
      = some "example.com:8080" ∧
    removeLeading (spec_host "https://www.example.com:8080/path") "www."
      = "example.com" ∧
    ("example.com:8080" : String) ≠ "example.com" := by decide

lemma stripScheme_https (tail : List Char) :
    stripScheme ('h' :: 't' :: 't' :: 'p' :: 's' :: ':' :: tail) = tail := rfl

lemma takeWhile_append_delim (p : Char → Bool) (l1 l2 : List Char) (d : Char)
    (h1 : ∀ c ∈ l1, p c = true) (hd : p d = false) :
    (l1 ++ d :: l2).takeWhile p = l1 := by
  induction l1 with
  | nil => simp [List.takeWhile, hd]
  | cons a t ih =>
    have ha : p a = true := h1 a (by simp)
    simp [List.takeWhile_cons, ha]
    exact ih (fun c hc => h1 c (by simp [hc]))

lemma urlparse_netloc_https (auth rest : String)
    (ha : ∀ c ∈ auth.data, (!(c == '/' || c == '?' || c == '#')) = true) :
    urlparse_netloc ("https://" ++ auth ++ ("/" ++ rest)) = auth := by
  have h8 : ("https://" : String).data = ['h','t','t','p','s',':','/','/'] := rfl
  have hs : ("/" : String).data = ['/'] := rfl
  have hdata : ("https://" ++ auth ++ ("/" ++ rest)).data
      = 'h' :: 't' :: 't' :: 'p' :: 's' :: ':' :: '/' :: '/' :: (auth.data ++ '/' :: rest.data) := by
    rw [data_append, data_append, data_append, h8, hs]
    simp
  unfold urlparse_netloc
  rw [hdata, stripScheme_https]
  show (⟨netlocChars (auth.data ++ '/' :: rest.data)⟩ : String) = auth
  unfold netlocChars
  rw [takeWhile_append_delim _ _ _ _ ha (by decide)]

/-- Claim C7 amended: for a website of the form `https://<authority>/…`
(authority free of `/`, `?`, `#`), the derived domain is the full authority
— user-info and port included, i.e. the URL's netloc — with a leading
`"www."` removed when present; when no website is present the domain is
absent. -/
theorem C7_domain (r : DetailsResult) (auth rest : String)
    (hw : r.website = some ("https://" ++ auth ++ ("/" ++ rest)))
    (ha : ∀ c ∈ auth.data, (!(c == '/' || c == '?' || c == '#')) = true) :
    (place_details r).2.1 = some (removeLeading auth "www.") ∧
    (∀ r2 : DetailsResult, r2.website = none → (place_details r2).2.1 = none) := by
  have h8 : ("https://" : String).data = ['h','t','t','p','s',':','/','/'] := rfl
  have hs : ("/" : String).data = ['/'] := rfl
  have hdata : ("https://" ++ auth ++ ("/" ++ rest)).data
      = 'h' :: 't' :: 't' :: 'p' :: 's' :: ':' :: '/' :: '/' :: (auth.data ++ '/' :: rest.data) := by
    rw [data_append, data_append, data_append, h8, hs]
    simp
  have hne : ("https://" ++ auth ++ ("/" ++ rest)) ≠ "" := by
    intro h
    have h2 := congrArg String.data h
    rw [hdata] at h2
    simp at h2
  constructor
  · simp only [place_details, hw, optTruthy, orEmpty]
    simp only [hne, decide_not]
    simp [hne]
    rw [urlparse_netloc_https auth rest ha]
  · intro r2 h2
    simp [place_details, h2, optTruthy]

/-- Witness for C7 (amended) on the spec's own example website. -/
theorem C7_domain_witness :
    (place_details ⟨none, some "https://www.example.com/p", []⟩).2.1
      = some "example.com" := by
  have h := (C7_domain ⟨none, some "https://www.example.com/p", []⟩ "www.example.com" "p"
      (by decide) (by decide)).1
  rw [h]
  decide

end GPE
